import Mathlib

/-!
# Verification of the GR-Lap-Coach telemetry analysis engine

Shallow embedding of `src/lib/telemetry-engine.ts` (the telemetry analysis
engine of the GR-Lap-Coach repository) and proofs about it.

Modelling conventions:
* JavaScript floating-point numbers are modelled by `ℚ` (exact arithmetic);
  the one place the engine takes a square root (the consistency standard
  deviation) is modelled relationally over `ℝ`.
* Arrays are Lean lists; `Array.prototype.slice(s, e)` is `jsSlice`.
* The `for` loop of `analyzeSpeedDeficits`, whose index increment
  `Math.floor(minLength / 5)` can be zero, is modelled with an explicit fuel
  parameter: a result of `none` means the loop has not terminated within the
  given fuel, and `none` for every fuel means the loop never terminates.
* `Infinity` (the end of the last sector) is modelled by `none` in an
  `Option ℚ` field.
-/

namespace GRLap

/-- One parsed telemetry sample (`TelemetryRow` in `src/types/telemetry.ts`). -/
structure TelemetryRow where
  timestamp : ℚ
  Laptrigger_lapdist_dls : ℚ
  Speed : ℚ
  Steering_Angle : ℚ
  pbrake_f : ℚ
  aps : ℚ
deriving DecidableEq

instance : Inhabited TelemetryRow := ⟨⟨0, 0, 0, 0, 0, 0⟩⟩

/-- A sector definition; `stop = none` models the `Infinity` end of `S4`. -/
structure SectorDef where
  name : String
  start : ℚ
  stop : Option ℚ
deriving DecidableEq

instance : Inhabited SectorDef := ⟨⟨"", 0, none⟩⟩

/-- The fixed `COTA_SECTORS` table. -/
def COTA_SECTORS : List SectorDef :=
  [⟨"S1", 0, some 1000⟩, ⟨"S2", 1000, some 2200⟩,
   ⟨"S3", 2200, some 3500⟩, ⟨"S4", 3500, none⟩]

def DRAFTING_SPEED_THRESHOLD : ℚ := 162

def LAP_RESET_HIGH_THRESHOLD : ℚ := 3000

def LAP_RESET_LOW_THRESHOLD : ℚ := 200

/-- `Array.prototype.slice(s, e)` for `0 ≤ s ≤ e`. -/
def jsSlice (l : List α) (s e : ℕ) : List α := (l.drop s).take (e - s)

/-- `Math.max(...l)` for a non-empty list (the engine never applies it to an
empty one; the `[]` case would be `-Infinity` in JS). -/
def jsMax (l : List ℚ) : ℚ :=
  match l with
  | [] => 0
  | x :: xs => xs.foldl max x

/-- `Math.min(...l)` on natural numbers, for a non-empty list. -/
def jsMinNat (l : List ℕ) : ℕ :=
  match l with
  | [] => 0
  | x :: xs => xs.foldl min x

/-! ## Sample Ingestor (`parseTelemetryCSV`)

The file-system read and Papa.parse are out of scope; the ingestor is
modelled on its post-parse inputs: the header row and the data rows, a row
being an association list from header name to the numeric cell value.  A
missing or unparseable cell is absent from the list (the engine's
`Number(row[c]) || 0` fallback then yields `0`). -/

/-- The four fatal error kinds of the engine. -/
inductive EngineError where
  | WrongFileKind
  | EmptyOrInvalidData
  | NoLapsDetected
  | NoValidSectors
deriving DecidableEq

/-- The fixed race-standings header vocabulary (`raceResultsIndicators`). -/
def raceResultsIndicators : List String :=
  ["POSITION", "NUMBER", "STATUS", "LAPS", "TOTAL_TIME", "GAP_FIRST"]

/-- The indicators of `raceResultsIndicators` that some header matches after
upper-casing (`matchedIndicators` in `parseTelemetryCSV`). -/
def matchedIndicators (headers : List String) : List String :=
  raceResultsIndicators.filter (fun indicator =>
    headers.any (fun h => h.toUpper = indicator))

/-- Is `pat` a leading segment of `hay`? (helper for substring search). -/
def leadsChars : List Char → List Char → Bool
  | [], _ => true
  | _ :: _, [] => false
  | p :: ps, h :: hs => p == h && leadsChars ps hs

/-- Does `hay` contain `pat` as a contiguous segment? -/
def containsChars (pat : List Char) : List Char → Bool
  | [] => leadsChars pat []
  | c :: hs => leadsChars pat (c :: hs) || containsChars pat hs

/-- `String.prototype.includes` (substring containment). -/
def strIncludes (s sub : String) : Bool := containsChars sub.toList s.toList

/-- The `findColumn` helper: for each alias pattern in priority order, try
exact match, then case-insensitive match, then substring containment in
either direction; first hit wins. -/
def findColumn (headers : List String) (patterns : List String) : Option String :=
  patterns.findSome? (fun pattern =>
    match headers.find? (fun h => h = pattern) with
    | some h => some h
    | none =>
      match headers.find? (fun h => h.toLower = pattern.toLower) with
      | some h => some h
      | none =>
        headers.find? (fun h =>
          strIncludes h.toLower pattern.toLower ||
          strIncludes pattern.toLower h.toLower))

/-- The resolved column map (`columnMap` in `parseTelemetryCSV`). -/
structure ColumnMap where
  timestamp : Option String
  Laptrigger_lapdist_dls : Option String
  Speed : Option String
  Steering_Angle : Option String
  pbrake_f : Option String
  aps : Option String

def columnMapOf (headers : List String) : ColumnMap where
  timestamp := findColumn headers ["timestamp", "time", "meta_time", "t", "Time"]
  Laptrigger_lapdist_dls :=
    findColumn headers ["Laptrigger_lapdist_dls", "lap_distance", "distance", "dist", "lap_dist"]
  Speed := findColumn headers ["Speed", "speed", "velocity", "vel", "spd"]
  Steering_Angle :=
    findColumn headers ["Steering_Angle", "steering", "steer", "angle", "steering_angle"]
  pbrake_f := findColumn headers ["pbrake_f", "brake", "brake_pressure", "pbrake", "front_brake"]
  aps := findColumn headers ["aps", "throttle", "accel", "accelerator", "gas"]

/-- `Number(row[name]) || 0`: a missing (or unparseable) cell yields `0`. -/
def getCell (row : List (String × ℚ)) (name : String) : ℚ :=
  (row.lookup name).getD 0

/-- Build one `TelemetryRow` from a raw row using the column map; an
unresolved column falls back to the canonical field name. -/
def rowToTelemetry (cmap : ColumnMap) (row : List (String × ℚ)) : TelemetryRow where
  timestamp := getCell row (cmap.timestamp.getD "timestamp")
  Laptrigger_lapdist_dls :=
    getCell row (cmap.Laptrigger_lapdist_dls.getD "Laptrigger_lapdist_dls")
  Speed := getCell row (cmap.Speed.getD "Speed")
  Steering_Angle := getCell row (cmap.Steering_Angle.getD "Steering_Angle")
  pbrake_f := getCell row (cmap.pbrake_f.getD "pbrake_f")
  aps := getCell row (cmap.aps.getD "aps")

/-- `parseTelemetryCSV` after the raw text has been split into a header row
and data rows.  Console warnings are ignored; the two `throw` sites become
the `WrongFileKind` and `EmptyOrInvalidData` errors. -/
def parseTelemetryCSV (headers : List String) (rows : List (List (String × ℚ))) :
    Except EngineError (List TelemetryRow) :=
  if 3 ≤ (matchedIndicators headers).length then
    .error .WrongFileKind
  else
    let cmap := columnMapOf headers
    let parsedData := rows.map (rowToTelemetry cmap)
    if 0 < parsedData.length then
      let samples := parsedData.take (min 10 parsedData.length)
      let hasValidTimestamps := samples.any (fun r => decide (0 < r.timestamp))
      let hasValidSpeeds := samples.any (fun r => decide (0 < r.Speed))
      let hasValidDistances := samples.any (fun r => decide (0 < r.Laptrigger_lapdist_dls))
      if !(hasValidTimestamps || hasValidSpeeds || hasValidDistances) then
        .error .EmptyOrInvalidData
      else
        .ok parsedData
    else
      .ok parsedData

/-! ## Lap Detector (`detectLaps`) -/

/-- A detected lap (`ParsedLap`). -/
structure ParsedLap where
  lapNumber : ℕ
  startIndex : ℕ
  endIndex : ℕ
  data : List TelemetryRow
  lapTime : ℚ
deriving DecidableEq

instance : Inhabited ParsedLap := ⟨⟨0, 0, 0, [], 0⟩⟩

/-- Is a lap boundary declared between samples `i - 1` and `i`? -/
def lapBoundary (data : List TelemetryRow) (i : ℕ) : Bool :=
  decide (LAP_RESET_HIGH_THRESHOLD < (data.getD (i - 1) default).Laptrigger_lapdist_dls) &&
  decide ((data.getD i default).Laptrigger_lapdist_dls < LAP_RESET_LOW_THRESHOLD)

/-- The mutable state of the `detectLaps` scan. -/
structure DetectState where
  laps : List ParsedLap
  currentLapStart : ℕ
  lapNumber : ℕ
deriving DecidableEq

/-- One iteration of the `detectLaps` scan at index `i`. -/
def detectStep (data : List TelemetryRow) (st : DetectState) (i : ℕ) : DetectState :=
  if lapBoundary data i then
    let lapData := jsSlice data st.currentLapStart i
    if 10 < lapData.length then
      { laps := st.laps ++
          [{ lapNumber := st.lapNumber
             startIndex := st.currentLapStart
             endIndex := i - 1
             data := lapData
             lapTime := (lapData.getLastD default).timestamp - (lapData.headD default).timestamp }]
        currentLapStart := i
        lapNumber := st.lapNumber + 1 }
    else
      { st with currentLapStart := i }
  else
    st

/-- `detectLaps`: scan indices `1 .. data.length - 1`, then close the
trailing segment. -/
def detectLaps (data : List TelemetryRow) : List ParsedLap :=
  let st := (List.range' 1 (data.length - 1)).foldl (detectStep data) ⟨[], 0, 1⟩
  if st.currentLapStart < data.length - 1 then
    let lapData := data.drop st.currentLapStart
    if 10 < lapData.length then
      st.laps ++
        [{ lapNumber := st.lapNumber
           startIndex := st.currentLapStart
           endIndex := data.length - 1
           data := lapData
           lapTime := (lapData.getLastD default).timestamp - (lapData.headD default).timestamp }]
    else
      st.laps
  else
    st.laps

/-! ## Sector Extractor and Drafting Filter -/

/-- An extracted sector instance (`Sector`); `distanceEnd = none` models
`Infinity`. -/
structure Sector where
  name : String
  distanceStart : ℚ
  distanceEnd : Option ℚ
  time : ℚ
  data : List TelemetryRow
  lapNumber : ℕ
  maxSpeed : ℚ
deriving DecidableEq

instance : Inhabited Sector := ⟨⟨"", 0, none, 0, [], 0, 0⟩⟩

/-- `row.Laptrigger_lapdist_dls >= sectorDef.start && ... < sectorDef.end`. -/
def inSectorRange (sdef : SectorDef) (r : TelemetryRow) : Bool :=
  decide (sdef.start ≤ r.Laptrigger_lapdist_dls) &&
  (match sdef.stop with
   | none => true
   | some e => decide (r.Laptrigger_lapdist_dls < e))

/-- `extractSector`: filter the lap's samples to the sector's distance
range; need at least 2 samples. -/
def extractSector (lap : ParsedLap) (sdef : SectorDef) : Option Sector :=
  let sectorData := lap.data.filter (inSectorRange sdef)
  if sectorData.length < 2 then none
  else
    some { name := sdef.name
           distanceStart := sdef.start
           distanceEnd := sdef.stop
           time := (sectorData.getLastD default).timestamp - (sectorData.headD default).timestamp
           data := sectorData
           lapNumber := lap.lapNumber
           maxSpeed := jsMax (sectorData.map (·.Speed)) }

/-- `isCornerSector`: every sector but the opening straight `S1`. -/
def isCornerSector (sectorName : String) : Bool := sectorName ≠ "S1"

/-- `isDrafting`: anomalously high top speed in a corner sector. -/
def isDrafting (s : Sector) : Bool :=
  decide (DRAFTING_SPEED_THRESHOLD < s.maxSpeed) && isCornerSector s.name

/-! ## Consistency Analyzer (`analyzeConsistency`)

All of `analyzeConsistency` is rational arithmetic except
`Math.sqrt(variance)`; the standard deviation and the score built from it
are therefore characterised relationally over `ℝ`. -/

def lapTimesOf (laps : List ParsedLap) : List ℚ := laps.map (·.lapTime)

/-- `avgLapTime`. -/
def avgLapTime (laps : List ParsedLap) : ℚ :=
  (lapTimesOf laps).sum / ((lapTimesOf laps).length : ℚ)

/-- The population `variance` of the lap times. -/
def lapVariance (laps : List ParsedLap) : ℚ :=
  ((lapTimesOf laps).map (fun time => (time - avgLapTime laps) ^ 2)).sum /
    ((lapTimesOf laps).length : ℚ)

/-- `Math.min(...l)` on rationals, for a non-empty list. -/
def jsMinQ (l : List ℚ) : ℚ :=
  match l with
  | [] => 0
  | x :: xs => xs.foldl min x

/-- `bestLapTime`. -/
def bestLapTime (laps : List ParsedLap) : ℚ := jsMinQ (lapTimesOf laps)

/-- `worstLapTime`. -/
def worstLapTime (laps : List ParsedLap) : ℚ := jsMax (lapTimesOf laps)

/-- `lapTimeVariation`: per-lap deviation from the best lap. -/
def lapTimeVariation (laps : List ParsedLap) : List ℚ :=
  (lapTimesOf laps).map (fun time => time - bestLapTime laps)

/-- `score` is the `consistencyScore` of `laps`: there is a standard
deviation `s` (the non-negative real square root of the population
variance) with `score = Math.max(0, Math.min(100, 100 - s * 10))`. -/
def ConsistencyScoreIs (laps : List ParsedLap) (score : ℝ) : Prop :=
  ∃ s : ℝ, 0 ≤ s ∧ s ^ 2 = ((lapVariance laps : ℚ) : ℝ) ∧
    score = max 0 (min 100 (100 - s * 10))

/-! ## Zone Analyzer (`analyzeBrakingZones`, `analyzeAccelerationZones`) -/

structure BrakingZone where
  sector : String
  distance : ℚ
  entrySpeed : ℚ
  exitSpeed : ℚ
  brakePressure : ℚ
  lapNumber : ℕ
deriving DecidableEq

structure AccelerationZone where
  sector : String
  distance : ℚ
  entrySpeed : ℚ
  exitSpeed : ℚ
  avgThrottle : ℚ
  lapNumber : ℕ
deriving DecidableEq

/-- `COTA_SECTORS.find(s => d >= s.start && d < s.end)?.name || 'Unknown'`. -/
def sectorNameAt (d : ℚ) : String :=
  ((COTA_SECTORS.find? (fun s =>
      decide (s.start ≤ d) &&
      (match s.stop with
       | none => true
       | some e => decide (d < e)))).map (·.name)).getD "Unknown"

/-- Is the braking condition (`pbrake_f > 0.3`) active on this sample? -/
def brakeActive (r : TelemetryRow) : Bool := decide ((0.3 : ℚ) < r.pbrake_f)

/-- Is the acceleration condition (`aps > 0.7 && pbrake_f < 0.1`) active? -/
def accelActive (r : TelemetryRow) : Bool :=
  decide ((0.7 : ℚ) < r.aps) && decide (r.pbrake_f < (0.1 : ℚ))

/-- State of one zone scan. -/
structure ZoneState (Z : Type) where
  inZone : Bool
  zoneStart : ℕ
  zones : List Z

/-- One iteration of the braking-zone scan of one lap at index `i`. -/
def brakingStep (lap : ParsedLap) (st : ZoneState BrakingZone) (i : ℕ) :
    ZoneState BrakingZone :=
  let row := lap.data.getD i default
  let isBraking := brakeActive row
  if isBraking && !st.inZone then
    { st with inZone := true, zoneStart := i }
  else if !isBraking && st.inZone then
    if 3 < i - st.zoneStart then
      let zoneData := jsSlice lap.data st.zoneStart i
      let distance := (zoneData.getD (zoneData.length / 2) default).Laptrigger_lapdist_dls
      { st with
        inZone := false
        zones := st.zones ++
          [{ sector := sectorNameAt distance
             distance := distance
             entrySpeed := (zoneData.headD default).Speed
             exitSpeed := (zoneData.getLastD default).Speed
             brakePressure := (zoneData.map (·.pbrake_f)).sum / (zoneData.length : ℚ)
             lapNumber := lap.lapNumber }] }
    else
      { st with inZone := false }
  else
    st

/-- The braking zones of one lap. -/
def brakingZonesOfLap (lap : ParsedLap) : List BrakingZone :=
  ((List.range lap.data.length).foldl (brakingStep lap) ⟨false, 0, []⟩).zones

/-- `analyzeBrakingZones`. -/
def analyzeBrakingZones (laps : List ParsedLap) : List BrakingZone :=
  laps.foldl (fun acc lap => acc ++ brakingZonesOfLap lap) []

/-- One iteration of the acceleration-zone scan of one lap at index `i`. -/
def accelStep (lap : ParsedLap) (st : ZoneState AccelerationZone) (i : ℕ) :
    ZoneState AccelerationZone :=
  let row := lap.data.getD i default
  let isAccelerating := accelActive row
  if isAccelerating && !st.inZone then
    { st with inZone := true, zoneStart := i }
  else if !isAccelerating && st.inZone then
    if 3 < i - st.zoneStart then
      let zoneData := jsSlice lap.data st.zoneStart i
      let distance := (zoneData.getD (zoneData.length / 2) default).Laptrigger_lapdist_dls
      { st with
        inZone := false
        zones := st.zones ++
          [{ sector := sectorNameAt distance
             distance := distance
             entrySpeed := (zoneData.headD default).Speed
             exitSpeed := (zoneData.getLastD default).Speed
             avgThrottle := (zoneData.map (·.aps)).sum / (zoneData.length : ℚ)
             lapNumber := lap.lapNumber }] }
    else
      { st with inZone := false }
  else
    st

/-- The acceleration zones of one lap. -/
def accelZonesOfLap (lap : ParsedLap) : List AccelerationZone :=
  ((List.range lap.data.length).foldl (accelStep lap) ⟨false, 0, []⟩).zones

/-- `analyzeAccelerationZones`. -/
def analyzeAccelerationZones (laps : List ParsedLap) : List AccelerationZone :=
  laps.foldl (fun acc lap => acc ++ accelZonesOfLap lap) []

/-! ## Corner Analyzer (`analyzeCorners`) -/

structure CornerAnalysis where
  sector : String
  distance : ℚ
  minSpeed : ℚ
  lapNumber : ℕ
  entrySpeed : ℚ
  exitSpeed : ℚ
deriving DecidableEq

/-- `sectorData.reduce((min, row) => row.Speed < min.Speed ? row : min)`. -/
def minSpeedRowOf (l : List TelemetryRow) : TelemetryRow :=
  match l with
  | [] => default
  | x :: xs => xs.foldl (fun m r => if r.Speed < m.Speed then r else m) x

def cornerFor (lap : ParsedLap) (sdef : SectorDef) : Option CornerAnalysis :=
  let sectorData := lap.data.filter (inSectorRange sdef)
  if sectorData.length < 5 then none
  else
    let minSpeedRow := minSpeedRowOf sectorData
    some { sector := sdef.name
           distance := minSpeedRow.Laptrigger_lapdist_dls
           minSpeed := minSpeedRow.Speed
           lapNumber := lap.lapNumber
           entrySpeed := (sectorData.headD default).Speed
           exitSpeed := (sectorData.getLastD default).Speed }

/-- `analyzeCorners`. -/
def analyzeCorners (laps : List ParsedLap) : List CornerAnalysis :=
  laps.foldl (fun acc lap => acc ++ COTA_SECTORS.filterMap (cornerFor lap)) []

/-! ## Speed-Deficit Analyzer (`analyzeSpeedDeficits`)

Its sampling loop is `for (let i = 0; i < minLength; i += Math.floor(minLength / 5))`;
the increment can be `0`, so the loop is modelled with fuel: `none` means it
did not finish within the given fuel. -/

structure SpeedDeficit where
  sector : String
  distance : ℚ
  speedLoss : ℚ
  bestSpeed : ℚ
  avgSpeed : ℚ
  description : String
deriving DecidableEq

/-- Zero-pad a numeral string on the left (`String.prototype.padStart`). -/
def padStart (s : String) (n : ℕ) (c : Char) : String :=
  String.mk (List.replicate (n - s.length) c) ++ s

/-- `Number.prototype.toFixed(d)` for the non-negative exact decimals the
engine produces (round half away from zero at `d` decimal places). -/
def toFixed (d : ℕ) (q : ℚ) : String :=
  let n : ℤ := ⌊q * ((10 : ℚ) ^ d) + 1 / 2⌋
  if d = 0 then toString n
  else toString (n / (10 : ℤ) ^ d) ++ "." ++
    padStart (toString (n % (10 : ℤ) ^ d)) d '0'

/-- The speed sequence of the sector's distance range in every lap that has
at least one sample there (`allSectorSpeeds`). -/
def sectorSpeedsPerLap (laps : List ParsedLap) (sdef : SectorDef) : List (List ℚ) :=
  laps.filterMap (fun lap =>
    let sectorData := lap.data.filter (inSectorRange sdef)
    if 0 < sectorData.length then some (sectorData.map (·.Speed)) else none)

/-- `speedsAtPoint = allSectorSpeeds.map(s => s[i] || 0)`. -/
def speedsAtPoint (speeds : List (List ℚ)) (i : ℕ) : List ℚ :=
  speeds.map (fun s => s.getD i 0)

def avgSpeedAt (speeds : List (List ℚ)) (i : ℕ) : ℚ :=
  (speedsAtPoint speeds i).sum / ((speedsAtPoint speeds i).length : ℚ)

def bestSpeedAt (speeds : List (List ℚ)) (i : ℕ) : ℚ :=
  jsMax (speedsAtPoint speeds i)

def speedLossAt (speeds : List (List ℚ)) (i : ℕ) : ℚ :=
  bestSpeedAt speeds i - avgSpeedAt speeds i

/-- `bestSector.data[Math.min(i, len - 1)]?.Laptrigger_lapdist_dls || sectorDef.start`
(`|| start` also replaces a literal `0` distance, which is falsy). -/
def deficitDistanceAt (bestSector : Sector) (sdef : SectorDef) (i : ℕ) : ℚ :=
  match bestSector.data.get? (min i (bestSector.data.length - 1)) with
  | some r =>
    if r.Laptrigger_lapdist_dls = 0 then sdef.start else r.Laptrigger_lapdist_dls
  | none => sdef.start

/-- The `SpeedDeficit` emitted at sampled index `i`, if the loss exceeds 5. -/
def deficitPointAt (speeds : List (List ℚ)) (bestSector : Sector) (sdef : SectorDef)
    (i : ℕ) : Option SpeedDeficit :=
  if 5 < speedLossAt speeds i then
    let distance := deficitDistanceAt bestSector sdef i
    let loss := toFixed 1 (speedLossAt speeds i)
    let dist := toFixed 0 distance
    some { sector := bestSector.name
           distance := distance
           speedLoss := speedLossAt speeds i
           bestSpeed := bestSpeedAt speeds i
           avgSpeed := avgSpeedAt speeds i
           description := s!"{loss} km/h slower than best at {dist}m" }
  else none

/-- The sampling loop, with fuel: starting at index `i`, visit `i`,
`i + step`, ... while the index is below `n`, collecting the emitted
deficits; `none` when the fuel runs out before the loop exits. -/
def deficitLoop (speeds : List (List ℚ)) (bestSector : Sector) (sdef : SectorDef)
    (n step : ℕ) : ℕ → ℕ → Option (List SpeedDeficit)
  | 0, i => if i < n then none else some []
  | fuel + 1, i =>
    if i < n then
      (deficitLoop speeds bestSector sdef n step fuel (i + step)).map
        (fun rest =>
          match deficitPointAt speeds bestSector sdef i with
          | some d => d :: rest
          | none => rest)
    else some []

/-- The deficits contributed by one winning sector. -/
def deficitsForSector (fuel : ℕ) (laps : List ParsedLap) (bestSector : Sector) :
    Option (List SpeedDeficit) :=
  match COTA_SECTORS.find? (fun s => decide (s.name = bestSector.name)) with
  | none => some []
  | some sdef =>
    let speeds := sectorSpeedsPerLap laps sdef
    if speeds.length < 2 then some []
    else
      let minLength := jsMinNat (speeds.map List.length)
      deficitLoop speeds bestSector sdef minLength (minLength / 5) fuel 0

/-- `analyzeSpeedDeficits`: concatenate the per-winning-sector deficits in
order; `none` as soon as one sector's loop fails to terminate. -/
def analyzeSpeedDeficits (fuel : ℕ) (laps : List ParsedLap)
    (bestSectors : List Sector) : Option (List SpeedDeficit) :=
  bestSectors.foldl
    (fun acc bs => acc.bind (fun l => (deficitsForSector fuel laps bs).map (fun d => l ++ d)))
    (some [])

/-! ## Perfect-Lap Synthesizer (`synthesizePerfectLap`) -/

structure SectorStats where
  sectorName : String
  bestTime : ℚ
  lapNumber : ℕ
  timeGain : ℚ
  avgSpeed : ℚ
deriving DecidableEq

/-- One step of the winner search: skip an absent or drafting-affected
instance, otherwise keep the strictly faster of it and the current best. -/
def pickBestStep (sdef : SectorDef) (best : Option Sector) (lap : ParsedLap) :
    Option Sector :=
  match extractSector lap sdef with
  | none => best
  | some s =>
    if isDrafting s then best
    else
      match best with
      | none => some s
      | some b => if s.time < b.time then some s else best

/-- The winning (minimum-time, non-drafting) instance of a sector
definition across all laps. -/
def pickBest (laps : List ParsedLap) (sdef : SectorDef) : Option Sector :=
  laps.foldl (pickBestStep sdef) none

/-- The surviving (extracted, non-drafting) instances of one definition. -/
def validSectorsOf (laps : List ParsedLap) (sdef : SectorDef) : List Sector :=
  (laps.filterMap (fun lap => extractSector lap sdef)).filter (fun s => !isDrafting s)

/-- `allSectorTimes`: the times of the surviving instances. -/
def validTimes (laps : List ParsedLap) (sdef : SectorDef) : List ℚ :=
  (validSectorsOf laps sdef).map (·.time)

/-- The `SectorStats` entry of one definition, when it has a winner. -/
def sectorStatFor (laps : List ParsedLap) (sdef : SectorDef) : Option SectorStats :=
  (pickBest laps sdef).map (fun b =>
    { sectorName := b.name
      bestTime := b.time
      lapNumber := b.lapNumber
      timeGain := (validTimes laps sdef).sum / ((validTimes laps sdef).length : ℚ) - b.time
      avgSpeed := (b.data.map (·.Speed)).sum / ((b.data.length : ℚ)) })

/-- The winning sectors, in `COTA_SECTORS` order (`bestSectors`). -/
def bestSectorsOf (laps : List ParsedLap) : List Sector :=
  COTA_SECTORS.filterMap (pickBest laps)

/-- The per-sector statistics, in `COTA_SECTORS` order (`sectorStats`). -/
def sectorStatsOf (laps : List ParsedLap) : List SectorStats :=
  COTA_SECTORS.filterMap (sectorStatFor laps)

/-- `theoreticalTime = bestSectors.reduce((sum, sector) => sum + sector.time, 0)`. -/
def theoreticalTimeOf (bestSectors : List Sector) : ℚ :=
  bestSectors.foldl (fun sum s => sum + s.time) 0

structure ChartPoint where
  distance : ℚ
  speed : ℚ
  sector : String
deriving DecidableEq

/-- `chartData`: the winners' samples flattened in sector order. -/
def chartDataOf (bestSectors : List Sector) : List ChartPoint :=
  bestSectors.foldl
    (fun acc s => acc ++ s.data.map (fun r => ⟨r.Laptrigger_lapdist_dls, r.Speed, s.name⟩)) []

/-- The engine result (`PerfectLapResult`).  `consistency` and
`improvementAreas` involve the real square root of the variance and are
modelled relationally (`ConsistencyScoreIs`), not as record fields. -/
structure EngineResult where
  theoreticalTime : ℚ
  chartData : List ChartPoint
  sectorStats : List SectorStats
  bestSectors : List Sector
  brakingZones : List BrakingZone
  accelerationZones : List AccelerationZone
  cornerAnalysis : List CornerAnalysis
  speedDeficits : List SpeedDeficit
deriving DecidableEq

/-- The analysis pipeline of `synthesizePerfectLap` on parsed telemetry:
lap detection, winner selection, analyzers.  `none` means the call never
returns (the speed-deficit loop did not terminate within `fuel`). -/
def engineAnalyze (fuel : ℕ) (data : List TelemetryRow) :
    Option (Except EngineError EngineResult) :=
  if data.length = 0 then some (.error .EmptyOrInvalidData)
  else
    let laps := detectLaps data
    if laps.length = 0 then some (.error .NoLapsDetected)
    else
      let bSectors := bestSectorsOf laps
      if bSectors.length = 0 then some (.error .NoValidSectors)
      else
        (analyzeSpeedDeficits fuel laps bSectors).map (fun ds =>
          .ok { theoreticalTime := theoreticalTimeOf bSectors
                chartData := chartDataOf bSectors
                sectorStats := sectorStatsOf laps
                bestSectors := bSectors
                brakingZones := analyzeBrakingZones laps
                accelerationZones := analyzeAccelerationZones laps
                cornerAnalysis := analyzeCorners laps
                speedDeficits := ds })

/-! ## Lap-time formatter (`formatLapTime`) -/

/-- JavaScript number-to-integer truncation (toward zero). -/
def jsTrunc (q : ℚ) : ℤ := if 0 ≤ q then ⌊q⌋ else ⌈q⌉

/-- The JavaScript `%` operator (remainder with truncated division). -/
def jsMod (a b : ℚ) : ℚ := a - b * (jsTrunc (a / b) : ℚ)

/-- `formatLapTime`: `minutes:seconds.milliseconds` with `padStart`. -/
def formatLapTime (timeInSeconds : ℚ) : String :=
  let minutes : ℤ := ⌊timeInSeconds / 60⌋
  let seconds : ℤ := ⌊jsMod timeInSeconds 60⌋
  let milliseconds : ℤ := ⌊jsMod timeInSeconds 1 * 1000⌋
  toString minutes ++ ":" ++ padStart (toString seconds) 2 '0' ++ "." ++
    padStart (toString milliseconds) 3 '0'

/-- Modelled from the spec (§6): `M:SS.mmm` with the minute count unpadded,
the whole-second part zero-padded to 2 digits and the millisecond part
zero-padded to 3 digits. -/
def formatLapTimeSpec (t : ℚ) : String :=
  let minutes : ℤ := ⌊t / 60⌋
  let seconds : ℤ := ⌊t⌋ % 60
  let milliseconds : ℤ := ⌊(t - (⌊t⌋ : ℚ)) * 1000⌋
  toString minutes ++ ":" ++ padStart (toString seconds) 2 '0' ++ "." ++
    padStart (toString milliseconds) 3 '0'

/-! ## Demonstration inputs used by the claim theorems and witnesses -/

/-- The three-lap demo of spec Scenario D (lap times 90 s, 90.5 s, 91 s). -/
def consistencyDemoLaps : List ParsedLap :=
  [⟨1, 0, 0, [], 90⟩, ⟨2, 0, 0, [], 90.5⟩, ⟨3, 0, 0, [], 91⟩]

/-- A sample on which the driver is hard on the brakes. -/
def brakeRowDemo : TelemetryRow := ⟨0, 0, 0, 0, 1, 0⟩

/-- A sample on which the driver is hard on the throttle. -/
def accelRowDemo : TelemetryRow := ⟨0, 0, 0, 0, 0, 1⟩

/-- A single clean 12-sample lap covering `S1` and `S2`. -/
def demoOkData : List TelemetryRow :=
  [⟨0, 0, 100, 0, 0, 0⟩, ⟨1, 100, 100, 0, 0, 0⟩, ⟨2, 200, 100, 0, 0, 0⟩,
   ⟨3, 300, 100, 0, 0, 0⟩, ⟨4, 400, 100, 0, 0, 0⟩, ⟨5, 500, 100, 0, 0, 0⟩,
   ⟨6, 600, 100, 0, 0, 0⟩, ⟨7, 700, 100, 0, 0, 0⟩, ⟨8, 800, 100, 0, 0, 0⟩,
   ⟨9, 900, 100, 0, 0, 0⟩, ⟨10, 1000, 100, 0, 0, 0⟩, ⟨11, 1100, 100, 0, 0, 0⟩]

/-- The result the engine returns on `demoOkData`. -/
def demoOkRes : EngineResult where
  theoreticalTime := theoreticalTimeOf (bestSectorsOf (detectLaps demoOkData))
  chartData := chartDataOf (bestSectorsOf (detectLaps demoOkData))
  sectorStats := sectorStatsOf (detectLaps demoOkData)
  bestSectors := bestSectorsOf (detectLaps demoOkData)
  brakingZones := analyzeBrakingZones (detectLaps demoOkData)
  accelerationZones := analyzeAccelerationZones (detectLaps demoOkData)
  cornerAnalysis := analyzeCorners (detectLaps demoOkData)
  speedDeficits := []

/-- Scenario A, lap 1: a slower `S2` run with top speed 150. -/
def draftLap1 : ParsedLap :=
  ⟨1, 0, 1, [⟨0, 1000, 150, 0, 0, 0⟩, ⟨10, 1100, 140, 0, 0, 0⟩], 10⟩

/-- Scenario A, lap 2: a faster `S2` run but with top speed 165 (drafting). -/
def draftLap2 : ParsedLap :=
  ⟨2, 0, 1, [⟨0, 1000, 165, 0, 0, 0⟩, ⟨5, 1100, 160, 0, 0, 0⟩], 5⟩

def draftDemoLaps : List ParsedLap := [draftLap1, draftLap2]

/-- The `S2` definition of `COTA_SECTORS`. -/
def S2def : SectorDef := ⟨"S2", 1000, some 2200⟩

/-- The expected `S2` winner: lap 1's instance. -/
def draftWinnerS2 : Sector := ⟨"S2", 1000, some 2200, 10, draftLap1.data, 1, 150⟩

/-- Lap 2's extracted `S2` instance (numerically fastest, drafting). -/
def draftSectorLap2 : Sector := ⟨"S2", 1000, some 2200, 5, draftLap2.data, 2, 165⟩

/-- The single lap detected before the boundary at `b`. -/
def firstLapOf (data : List TelemetryRow) (b : ℕ) : ParsedLap :=
  ⟨1, 0, b - 1, data.take b,
    ((data.take b).getLastD default).timestamp - ((data.take b).headD default).timestamp⟩

/-- Scenario B: 500 samples, distance 3100 up to index 299 and 150 from
index 300, so that the unique boundary transition is at index 300. -/
def c4StreamA : List TelemetryRow :=
  (List.range 500).map (fun i => ⟨i, if i < 300 then 3100 else 150, 0, 0, 0, 0⟩)

/-- Scenario C: the same shape but with only 8 samples after the
transition at index 300. -/
def c4StreamB : List TelemetryRow :=
  (List.range 308).map (fun i => ⟨i, if i < 300 then 3100 else 150, 0, 0, 0, 0⟩)

/-- The indices visited by the sampling loop from `i`: `i`, `i + step`, ...
while below `n`. -/
def sampleIndicesFrom (i n step : ℕ) : List ℕ :=
  (List.range ((n - i + step - 1) / step)).map (fun k => i + k * step)

/-- The sampled indices of the loop started at `0`. -/
def sampleIndices (n step : ℕ) : List ℕ := sampleIndicesFrom 0 n step

/-- The first sector definition. -/
def S1def : SectorDef := ⟨"S1", 0, some 1000⟩

/-- A 9-sample `S1` lap at speed 200. -/
def c7Lap1 : ParsedLap :=
  ⟨1, 0, 8,
   [⟨0, 0, 200, 0, 0, 0⟩, ⟨1, 100, 200, 0, 0, 0⟩, ⟨2, 200, 200, 0, 0, 0⟩,
    ⟨3, 300, 200, 0, 0, 0⟩, ⟨4, 400, 200, 0, 0, 0⟩, ⟨5, 500, 200, 0, 0, 0⟩,
    ⟨6, 600, 200, 0, 0, 0⟩, ⟨7, 700, 200, 0, 0, 0⟩, ⟨8, 800, 200, 0, 0, 0⟩], 8⟩

/-- A 9-sample `S1` lap at speed 100. -/
def c7Lap2 : ParsedLap :=
  ⟨2, 0, 8,
   [⟨10, 0, 100, 0, 0, 0⟩, ⟨11, 100, 100, 0, 0, 0⟩, ⟨12, 200, 100, 0, 0, 0⟩,
    ⟨13, 300, 100, 0, 0, 0⟩, ⟨14, 400, 100, 0, 0, 0⟩, ⟨15, 500, 100, 0, 0, 0⟩,
    ⟨16, 600, 100, 0, 0, 0⟩, ⟨17, 700, 100, 0, 0, 0⟩, ⟨18, 800, 100, 0, 0, 0⟩], 8⟩

def c7Laps : List ParsedLap := [c7Lap1, c7Lap2]

/-- The `S1` winner among the two 9-sample laps. -/
def c7Best : Sector := ⟨"S1", 0, some 1000, 8, c7Lap1.data, 1, 200⟩

/-- A 24-sample stream producing two laps whose common `S1` speed-sequence
length is 4: lap 1 has 11 `S1` samples and lap 2 only 4, so the sampling
step is `⌊4/5⌋ = 0` and the speed-deficit loop never advances. -/
def c6Data : List TelemetryRow :=
  [⟨0, 0, 100, 0, 0, 0⟩, ⟨1, 50, 100, 0, 0, 0⟩, ⟨2, 100, 100, 0, 0, 0⟩,
   ⟨3, 150, 100, 0, 0, 0⟩, ⟨4, 200, 100, 0, 0, 0⟩, ⟨5, 250, 100, 0, 0, 0⟩,
   ⟨6, 300, 100, 0, 0, 0⟩, ⟨7, 350, 100, 0, 0, 0⟩, ⟨8, 400, 100, 0, 0, 0⟩,
   ⟨9, 450, 100, 0, 0, 0⟩, ⟨10, 500, 100, 0, 0, 0⟩, ⟨11, 3100, 100, 0, 0, 0⟩,
   ⟨12, -80, 100, 0, 0, 0⟩, ⟨13, -70, 100, 0, 0, 0⟩, ⟨14, -60, 100, 0, 0, 0⟩,
   ⟨15, -50, 100, 0, 0, 0⟩, ⟨16, -40, 100, 0, 0, 0⟩, ⟨17, -30, 100, 0, 0, 0⟩,
   ⟨18, -20, 100, 0, 0, 0⟩, ⟨19, -10, 100, 0, 0, 0⟩, ⟨20, 10, 100, 0, 0, 0⟩,
   ⟨21, 20, 100, 0, 0, 0⟩, ⟨22, 30, 100, 0, 0, 0⟩, ⟨23, 40, 100, 0, 0, 0⟩]

/-- The `S1` winner the engine selects on `c6Data` (lap 2's instance). -/
def c6Winner : Sector :=
  ⟨"S1", 0, some 1000, 3,
   [⟨20, 10, 100, 0, 0, 0⟩, ⟨21, 20, 100, 0, 0, 0⟩,
    ⟨22, 30, 100, 0, 0, 0⟩, ⟨23, 40, 100, 0, 0, 0⟩], 2, 100⟩

def c6SpeedsA : List ℚ := List.replicate 11 100

def c6SpeedsB : List ℚ := List.replicate 4 100

/-! ## Shared helper lemmas -/

/-- Two folds agree when the step functions agree on every visited index. -/
theorem foldl_eq_of_step_eq {S : Type} (f g : S → ℕ → S) :
    ∀ (l : List ℕ), (∀ i ∈ l, ∀ st, f st i = g st i) → ∀ st, l.foldl f st = l.foldl g st := by
  intro l
  induction l with
  | nil => intro _ _; rfl
  | cons x xs ih =>
    intro h st
    simp only [List.foldl_cons]
    rw [h x (by simp), ih (fun i hi st => h i (by simp [hi]) st)]

/-- A fold whose step fixes every visited index is the identity. -/
theorem foldl_fixed {S : Type} (f : S → ℕ → S) :
    ∀ (l : List ℕ), (∀ i ∈ l, ∀ st, f st i = st) → ∀ st, l.foldl f st = st := by
  intro l
  induction l with
  | nil => intro _ _; rfl
  | cons x xs ih =>
    intro h st
    simp only [List.foldl_cons]
    rw [h x (by simp), ih (fun i hi st => h i (by simp [hi]) st)]

/-- Lower bound: a list of elements all at least `m` sums to at least
`length * m`. -/
theorem length_mul_le_sum (l : List ℚ) (m : ℚ) (h : ∀ x ∈ l, m ≤ x) :
    (l.length : ℚ) * m ≤ l.sum := by
  have := List.card_nsmul_le_sum l m h
  rwa [nsmul_eq_mul] at this

/-- Summing with `foldl (+)` from an arbitrary seed. -/
theorem foldl_add_time (l : List Sector) :
    ∀ a : ℚ, l.foldl (fun sum s => sum + s.time) a = a + (l.map Sector.time).sum := by
  induction l with
  | nil => intro a; simp
  | cons x xs ih => intro a; simp [ih, add_assoc]

/-- Floor of a rational divided by a positive integer. -/
theorem intFloor_div_int (t : ℚ) (m : ℤ) (hm : 0 < m) :
    ⌊t / (m : ℚ)⌋ = ⌊t⌋ / m := by
  have h0 : (0 : ℚ) < (m : ℚ) := by exact_mod_cast hm
  have hne : m ≠ 0 := hm.ne'
  have hq := Int.ediv_add_emod ⌊t⌋ m
  have hr0 : 0 ≤ ⌊t⌋ % m := Int.emod_nonneg _ hne
  have hrn : ⌊t⌋ % m < m := Int.emod_lt_of_pos _ hm
  have hf1 : ((⌊t⌋ : ℚ)) ≤ t := Int.floor_le t
  have hf2 : t < ⌊t⌋ + 1 := Int.lt_floor_add_one t
  have hqQ : (m : ℚ) * ((⌊t⌋ / m : ℤ) : ℚ) + ((⌊t⌋ % m : ℤ) : ℚ) = (⌊t⌋ : ℚ) := by
    exact_mod_cast hq
  have hr0Q : (0 : ℚ) ≤ ((⌊t⌋ % m : ℤ) : ℚ) := by exact_mod_cast hr0
  have hrnQ : ((⌊t⌋ % m : ℤ) : ℚ) < (m : ℚ) := by exact_mod_cast hrn
  have hrn1 : ((⌊t⌋ % m + 1 : ℤ) : ℚ) ≤ (m : ℚ) := by exact_mod_cast hrn
  rw [Int.floor_eq_iff]
  constructor
  · rw [le_div_iff₀ h0]
    nlinarith
  · rw [div_lt_iff₀ h0]
    push_cast at hrn1
    nlinarith

/-- For non-negative `t`, `Math.floor(t % 60)` is `⌊t⌋ % 60`. -/
theorem floor_jsMod_sixty (t : ℚ) (ht : 0 ≤ t) : ⌊jsMod t 60⌋ = ⌊t⌋ % 60 := by
  have h60 : (0 : ℚ) ≤ t / 60 := by positivity
  rw [jsMod, jsTrunc, if_pos h60,
    show (60 : ℚ) = ((60 : ℤ) : ℚ) by norm_num, intFloor_div_int t 60 (by norm_num)]
  have : t - ((60 : ℤ) : ℚ) * ((⌊t⌋ / 60 : ℤ) : ℚ) = t - (((60 * (⌊t⌋ / 60) : ℤ)) : ℚ) := by
    push_cast; ring
  rw [this, Int.floor_sub_int, Int.emod_def]

/-- For non-negative `t`, `t % 1` is the fractional part of `t`. -/
theorem jsMod_one (t : ℚ) (ht : 0 ≤ t) : jsMod t 1 = t - (⌊t⌋ : ℚ) := by
  rw [jsMod, jsTrunc, div_one, if_pos ht, one_mul]

/-! ## Claim C9 — the lap-time formatter -/

/-- C9: for every non-negative number of seconds, `formatLapTime` produces
`M:SS.mmm` — minutes `⌊t/60⌋` unpadded, whole seconds `⌊t⌋ % 60` zero-padded
to 2 digits, milliseconds `⌊fract t * 1000⌋` zero-padded to 3 digits (the
spec-level formatter `formatLapTimeSpec`) — and in particular it formats
90.125 seconds as `"1:30.125"`. -/
theorem claim_C9 :
    (∀ t : ℚ, 0 ≤ t → formatLapTime t = formatLapTimeSpec t) ∧
    formatLapTime (90125 / 1000 : ℚ) = "1:30.125" := by
  constructor
  · intro t ht
    have hsec : ⌊jsMod t 60⌋ = ⌊t⌋ % 60 := floor_jsMod_sixty t ht
    have hms : jsMod t 1 = t - (⌊t⌋ : ℚ) := jsMod_one t ht
    simp only [formatLapTime, formatLapTimeSpec, hsec, hms]
  · with_unfolding_all decide

/-- Witness for C9 at `t = 90.125`. -/
theorem claim_C9_witness :
    formatLapTime (90125 / 1000 : ℚ) = formatLapTimeSpec (90125 / 1000 : ℚ) :=
  claim_C9.1 (90125 / 1000 : ℚ) (by norm_num)

/-! ## Claim C8 — wrong-file detection -/

/-- C8 counterexample: a header row with three headers all exactly equal to
the vocabulary word `POSITION` has three or more headers exactly matching
the race-standings vocabulary, yet the ingestor does not raise
`WrongFileKind` (the code counts matched vocabulary entries, not matching
headers). -/
theorem claim_C8_counterexample :
    (((["POSITION", "POSITION", "POSITION"] : List String).filter
        (fun h => raceResultsIndicators.contains h.toUpper)).length = 3) ∧
    parseTelemetryCSV ["POSITION", "POSITION", "POSITION"] [] ≠
      Except.error EngineError.WrongFileKind := by
  constructor
  · with_unfolding_all decide
  · have h : parseTelemetryCSV ["POSITION", "POSITION", "POSITION"] [] = Except.ok [] := by
      with_unfolding_all rfl
    rw [h]
    intro hc
    exact Except.noConfusion hc

/-- C8 (amended): the ingestor fails with `WrongFileKind`, before any
column mapping, exactly when three or more of the six vocabulary entries
are each matched (case-insensitively, after upper-casing) by some header;
with fewer than three matched entries that error is never raised. -/
theorem claim_C8 (headers : List String) (rows : List (List (String × ℚ))) :
    (3 ≤ (matchedIndicators headers).length →
      parseTelemetryCSV headers rows = .error .WrongFileKind) ∧
    ((matchedIndicators headers).length < 3 →
      parseTelemetryCSV headers rows ≠ .error .WrongFileKind) := by
  constructor
  · intro h
    rw [parseTelemetryCSV, if_pos h]
  · intro h
    rw [parseTelemetryCSV, if_neg (by omega)]
    simp only
    split_ifs <;> simp

/-- Witness for C8: a header row matching three vocabulary entries is
rejected as a standings file. -/
theorem claim_C8_witness :
    parseTelemetryCSV ["POSITION", "NUMBER", "STATUS", "timestamp"] [] =
      .error .WrongFileKind :=
  (claim_C8 ["POSITION", "NUMBER", "STATUS", "timestamp"] []).1 (by with_unfolding_all decide)

/-- C5: the consistency score `clamp(0, 100, 100 - stdDeviation * 10)`
(with `stdDeviation` the square root of the population variance of the lap
times) always lies in `[0, 100]`, and for laps of 90 s, 90.5 s and 91 s it
is ≈ 95.9 (strictly between 95.9 and 96). -/
theorem claim_C5 :
    (∀ (laps : List ParsedLap) (score : ℝ),
      ConsistencyScoreIs laps score → 0 ≤ score ∧ score ≤ 100) ∧
    (∀ score : ℝ, ConsistencyScoreIs consistencyDemoLaps score →
      95.9 < score ∧ score < 96) := by
  constructor
  · rintro laps score ⟨s, hs0, hs2, rfl⟩
    refine ⟨le_max_left 0 _, max_le (by norm_num) (min_le_left _ _)⟩
  · rintro score ⟨s, hs0, hs2, rfl⟩
    have hv : lapVariance consistencyDemoLaps = 1 / 6 := by with_unfolding_all decide
    rw [hv] at hs2
    have hs2' : s ^ 2 = (1 : ℝ) / 6 := by
      rw [hs2]; norm_num
    have h1 : (0.4 : ℝ) < s := by nlinarith
    have h2 : s < (0.41 : ℝ) := by nlinarith
    rw [min_eq_right (by nlinarith), max_eq_right (by nlinarith)]
    constructor <;> nlinarith

/-- Witness for C5 at the Scenario D laps, with the explicit standard
deviation `Real.sqrt (1/6)`. -/
theorem claim_C5_witness :
    95.9 < max 0 (min 100 (100 - Real.sqrt (((1 : ℚ) / 6 : ℚ) : ℝ) * 10)) ∧
    max 0 (min 100 (100 - Real.sqrt (((1 : ℚ) / 6 : ℚ) : ℝ) * 10)) < 96 :=
  claim_C5.2 _
    ⟨Real.sqrt (((1 : ℚ) / 6 : ℚ) : ℝ), Real.sqrt_nonneg _,
      by
        rw [Real.sq_sqrt (by positivity)]
        norm_cast
        with_unfolding_all decide,
      rfl⟩

/-! ## Claim C10 — zones are only emitted on an active-to-inactive transition -/

theorem getD_append_left (d a : List TelemetryRow) (i : ℕ) (hi : i < d.length)
    (x : TelemetryRow) : (d ++ a).getD i x = d.getD i x := by
  simp [List.getD_eq_getElem?_getD, List.getElem?_append_left hi]

theorem getD_append_right (d a : List TelemetryRow) (k : ℕ) (x : TelemetryRow) :
    (d ++ a).getD (d.length + k) x = a.getD k x := by
  simp [List.getD_eq_getElem?_getD, List.getElem?_append_right (Nat.le_add_right d.length k)]

theorem jsSlice_append (d a : List α) (s e : ℕ) (he : e ≤ d.length) :
    jsSlice (d ++ a) s e = jsSlice d s e := by
  unfold jsSlice
  by_cases hs : s ≤ d.length
  · rw [List.drop_append_of_le_length hs,
      List.take_append_of_le_length (by simp [List.length_drop]; omega)]
  · have h0 : e - s = 0 := by omega
    simp [h0]

/-- Scanning the appended part of a lap behaves like scanning the original
lap on indices inside the original data. -/
theorem brakingStep_append (n si ei : ℕ) (t : ℚ) (d a : List TelemetryRow) (i : ℕ)
    (hi : i < d.length) (st : ZoneState BrakingZone) :
    brakingStep ⟨n, si, ei, d ++ a, t⟩ st i = brakingStep ⟨n, si, ei, d, t⟩ st i := by
  unfold brakingStep
  rw [show (ParsedLap.mk n si ei (d ++ a) t).data = d ++ a from rfl,
    show (ParsedLap.mk n si ei d t).data = d from rfl,
    getD_append_left d a i hi, jsSlice_append d a st.zoneStart i hi.le]

theorem accelStep_append (n si ei : ℕ) (t : ℚ) (d a : List TelemetryRow) (i : ℕ)
    (hi : i < d.length) (st : ZoneState AccelerationZone) :
    accelStep ⟨n, si, ei, d ++ a, t⟩ st i = accelStep ⟨n, si, ei, d, t⟩ st i := by
  unfold accelStep
  rw [show (ParsedLap.mk n si ei (d ++ a) t).data = d ++ a from rfl,
    show (ParsedLap.mk n si ei d t).data = d from rfl,
    getD_append_left d a i hi, jsSlice_append d a st.zoneStart i hi.le]

/-- Scanning a sample on which the braking condition is active never emits
a zone. -/
theorem brakingStep_active (lap : ParsedLap) (i : ℕ)
    (h : brakeActive (lap.data.getD i default) = true) (st : ZoneState BrakingZone) :
    (brakingStep lap st i).zones = st.zones := by
  simp only [brakingStep]
  rw [h]
  cases hz : st.inZone <;> simp

theorem accelStep_active (lap : ParsedLap) (i : ℕ)
    (h : accelActive (lap.data.getD i default) = true) (st : ZoneState AccelerationZone) :
    (accelStep lap st i).zones = st.zones := by
  simp only [accelStep]
  rw [h]
  cases hz : st.inZone <;> simp

theorem foldl_brakingStep_zones (lap : ParsedLap) :
    ∀ (l : List ℕ), (∀ i ∈ l, brakeActive (lap.data.getD i default) = true) →
    ∀ st, ((l.foldl (brakingStep lap) st)).zones = st.zones := by
  intro l
  induction l with
  | nil => intro _ _; rfl
  | cons x xs ih =>
    intro h st
    simp only [List.foldl_cons]
    rw [ih (fun i hi => h i (by simp [hi])), brakingStep_active lap x (h x (by simp)) st]

theorem foldl_accelStep_zones (lap : ParsedLap) :
    ∀ (l : List ℕ), (∀ i ∈ l, accelActive (lap.data.getD i default) = true) →
    ∀ st, ((l.foldl (accelStep lap) st)).zones = st.zones := by
  intro l
  induction l with
  | nil => intro _ _; rfl
  | cons x xs ih =>
    intro h st
    simp only [List.foldl_cons]
    rw [ih (fun i hi => h i (by simp [hi])), accelStep_active lap x (h x (by simp)) st]

/-- C10: a braking (resp. acceleration) zone is emitted only on a
transition from active to inactive inside the lap: appending any run of
samples on which the activation condition still holds at the end of the
lap's data — however long — changes nothing in the emitted zones. -/
theorem claim_C10 :
    (∀ (n si ei : ℕ) (t : ℚ) (d a : List TelemetryRow),
      (∀ r ∈ a, brakeActive r = true) →
      brakingZonesOfLap ⟨n, si, ei, d ++ a, t⟩ = brakingZonesOfLap ⟨n, si, ei, d, t⟩) ∧
    (∀ (n si ei : ℕ) (t : ℚ) (d a : List TelemetryRow),
      (∀ r ∈ a, accelActive r = true) →
      accelZonesOfLap ⟨n, si, ei, d ++ a, t⟩ = accelZonesOfLap ⟨n, si, ei, d, t⟩) := by
  constructor
  · intro n si ei t d a h
    unfold brakingZonesOfLap
    rw [show (ParsedLap.mk n si ei (d ++ a) t).data = d ++ a from rfl,
      show (ParsedLap.mk n si ei d t).data = d from rfl,
      List.length_append, List.range_add, List.foldl_append]
    rw [foldl_brakingStep_zones _ _ ?hact]
    case hact =>
      intro i hi
      obtain ⟨k, hk, rfl⟩ := by simpa using hi
      have hk' : k < a.length := hk
      rw [show (ParsedLap.mk n si ei (d ++ a) t).data = d ++ a from rfl,
        getD_append_right d a k default]
      apply h
      have : a.getD k default = a.get ⟨k, hk'⟩ := by
        simp [List.getD_eq_getElem?_getD, List.getElem?_eq_getElem hk']
      rw [this]
      exact List.get_mem a k hk'
    rw [foldl_eq_of_step_eq (brakingStep ⟨n, si, ei, d ++ a, t⟩)
      (brakingStep ⟨n, si, ei, d, t⟩) (List.range d.length) ?hagree]
    case hagree =>
      intro i hi st
      exact brakingStep_append n si ei t d a i (by simpa using hi) st
  · intro n si ei t d a h
    unfold accelZonesOfLap
    rw [show (ParsedLap.mk n si ei (d ++ a) t).data = d ++ a from rfl,
      show (ParsedLap.mk n si ei d t).data = d from rfl,
      List.length_append, List.range_add, List.foldl_append]
    rw [foldl_accelStep_zones _ _ ?hact]
    case hact =>
      intro i hi
      obtain ⟨k, hk, rfl⟩ := by simpa using hi
      have hk' : k < a.length := hk
      rw [show (ParsedLap.mk n si ei (d ++ a) t).data = d ++ a from rfl,
        getD_append_right d a k default]
      apply h
      have : a.getD k default = a.get ⟨k, hk'⟩ := by
        simp [List.getD_eq_getElem?_getD, List.getElem?_eq_getElem hk']
      rw [this]
      exact List.get_mem a k hk'
    rw [foldl_eq_of_step_eq (accelStep ⟨n, si, ei, d ++ a, t⟩)
      (accelStep ⟨n, si, ei, d, t⟩) (List.range d.length) ?hagree]
    case hagree =>
      intro i hi st
      exact accelStep_append n si ei t d a i (by simpa using hi) st

/-- Witness for C10: a lap that brakes (resp. accelerates) on all of its 20
samples, to the very end, emits no zone at all. -/
theorem claim_C10_witness :
    brakingZonesOfLap ⟨1, 0, 19, List.replicate 20 brakeRowDemo, 0⟩ = [] ∧
    accelZonesOfLap ⟨1, 0, 19, List.replicate 20 accelRowDemo, 0⟩ = [] := by
  constructor
  · exact (claim_C10.1 1 0 19 0 [] (List.replicate 20 brakeRowDemo)
      (fun r hr => by
        rw [List.eq_of_mem_replicate hr]
        with_unfolding_all decide)).trans rfl
  · exact (claim_C10.2 1 0 19 0 [] (List.replicate 20 accelRowDemo)
      (fun r hr => by
        rw [List.eq_of_mem_replicate hr]
        with_unfolding_all decide)).trans rfl

/-! ## The winner search: invariants of `pickBest` -/

/-- Invariant of the winner-search fold: a `some` result is at least as
fast as the accumulator and as every surviving instance, and is either the
accumulator itself or one of the surviving instances. -/
theorem pickBest_aux (sdef : SectorDef) :
    ∀ (laps : List ParsedLap) (acc : Option Sector) (b : Sector),
      laps.foldl (pickBestStep sdef) acc = some b →
      (∀ a, acc = some a → b.time ≤ a.time) ∧
      (∀ s ∈ validSectorsOf laps sdef, b.time ≤ s.time) ∧
      (acc = some b ∨ b ∈ validSectorsOf laps sdef) := by
  intro laps
  induction laps with
  | nil =>
    intro acc b h
    simp only [List.foldl_nil] at h
    subst h
    refine ⟨fun a ha => ?_, fun s hs => ?_, Or.inl rfl⟩
    · injection ha with ha'
      rw [ha']
    · simp [validSectorsOf] at hs
  | cons lap rest ih =>
    intro acc b h
    simp only [List.foldl_cons] at h
    have H := ih (pickBestStep sdef acc lap) b h
    rcases hx : extractSector lap sdef with _ | s
    · have hstep : pickBestStep sdef acc lap = acc := by simp [pickBestStep, hx]
      rw [hstep] at H
      have hv : validSectorsOf (lap :: rest) sdef = validSectorsOf rest sdef := by
        simp [validSectorsOf, List.filterMap_cons, hx]
      rw [hv]
      exact H
    · rcases hd : isDrafting s with _ | _
      · -- surviving instance
        have hv : validSectorsOf (lap :: rest) sdef = s :: validSectorsOf rest sdef := by
          simp [validSectorsOf, List.filterMap_cons, hx, List.filter_cons, hd]
        rcases hacc : acc with _ | a0
        · have hstep : pickBestStep sdef acc lap = some s := by
            simp [pickBestStep, hx, hd, hacc]
          rw [hstep] at H
          rw [hv]
          refine ⟨?_, ?_, ?_⟩
          · intro a ha
            simp at ha
          · intro x hmx
            rcases List.mem_cons.mp hmx with rfl | hmem
            · exact H.1 x rfl
            · exact H.2.1 x hmem
          · right
            rcases H.2.2 with h' | h'
            · injection h' with h''
              subst h''
              exact List.mem_cons_self _ _
            · exact List.mem_cons_of_mem s h'
        · by_cases hlt : s.time < a0.time
          · -- the new instance is strictly faster
            have hstep : pickBestStep sdef acc lap = some s := by
              simp [pickBestStep, hx, hd, hacc, hlt]
            rw [hstep] at H
            rw [hv]
            have hbs : b.time ≤ s.time := H.1 s rfl
            refine ⟨?_, ?_, ?_⟩
            · intro a ha
              injection ha with ha'
              rw [← ha']
              exact hbs.trans hlt.le
            · intro x hmx
              rcases List.mem_cons.mp hmx with rfl | hmem
              · exact hbs
              · exact H.2.1 x hmem
            · right
              rcases H.2.2 with h' | h'
              · injection h' with h''
                subst h''
                exact List.mem_cons_self _ _
              · exact List.mem_cons_of_mem s h'
          · -- keep the accumulator
            have hstep : pickBestStep sdef acc lap = some a0 := by
              simp [pickBestStep, hx, hd, hacc, hlt]
            rw [hstep] at H
            rw [hv]
            have hba0 : b.time ≤ a0.time := H.1 a0 rfl
            refine ⟨?_, ?_, ?_⟩
            · intro a ha
              injection ha with ha'
              rw [← ha']
              exact hba0
            · intro x hmx
              rcases List.mem_cons.mp hmx with rfl | hmem
              · exact hba0.trans (not_lt.mp hlt)
              · exact H.2.1 x hmem
            · rcases H.2.2 with h' | h'
              · exact Or.inl h'
              · exact Or.inr (List.mem_cons_of_mem s h')
      · -- drafting-affected instance: skipped
        have hstep : pickBestStep sdef acc lap = acc := by simp [pickBestStep, hx, hd]
        rw [hstep] at H
        have hv : validSectorsOf (lap :: rest) sdef = validSectorsOf rest sdef := by
          simp [validSectorsOf, List.filterMap_cons, hx, List.filter_cons, hd]
        rw [hv]
        exact H

/-- The winner is a surviving instance and has minimal time among them. -/
theorem pickBest_min (laps : List ParsedLap) (sdef : SectorDef) (b : Sector)
    (h : pickBest laps sdef = some b) :
    b ∈ validSectorsOf laps sdef ∧ ∀ s ∈ validSectorsOf laps sdef, b.time ≤ s.time := by
  have H := pickBest_aux sdef laps none b h
  refine ⟨?_, H.2.1⟩
  rcases H.2.2 with h' | h'
  · cases h'
  · exact h'

/-- Surviving instances are never drafting-affected. -/
theorem mem_valid_not_drafting {laps : List ParsedLap} {sdef : SectorDef} {s : Sector}
    (h : s ∈ validSectorsOf laps sdef) : isDrafting s = false := by
  have := List.of_mem_filter h
  simpa using this

/-! ## Claim C1 — theoretical time is the sum of the winning sector times -/

theorem bestTimes_eq (laps : List ParsedLap) :
    (sectorStatsOf laps).map SectorStats.bestTime = (bestSectorsOf laps).map Sector.time := by
  unfold sectorStatsOf bestSectorsOf
  rw [List.map_filterMap, List.map_filterMap]
  have hpt : (fun d => (sectorStatFor laps d).map SectorStats.bestTime) =
      (fun d => (pickBest laps d).map Sector.time) := by
    funext d
    unfold sectorStatFor
    cases pickBest laps d <;> rfl
  rw [hpt]

theorem theoreticalTime_eq_sum (laps : List ParsedLap) :
    theoreticalTimeOf (bestSectorsOf laps) = ((bestSectorsOf laps).map Sector.time).sum := by
  unfold theoreticalTimeOf
  rw [foldl_add_time]
  simp

/-- C1: whenever the engine returns a result, its `theoreticalTime` is the
sum of the `bestTime` entries of `sectorStats`, which is the sum of the
winning sector times over every sector definition that has a winner. -/
theorem claim_C1 (fuel : ℕ) (data : List TelemetryRow) (res : EngineResult)
    (h : engineAnalyze fuel data = some (.ok res)) :
    res.theoreticalTime = (res.sectorStats.map SectorStats.bestTime).sum ∧
    res.theoreticalTime =
      (COTA_SECTORS.filterMap
        (fun d => (pickBest (detectLaps data) d).map Sector.time)).sum := by
  simp only [engineAnalyze] at h
  split_ifs at h with h1 h2 h3
  · simp at h
  · simp at h
  · simp at h
  · obtain ⟨ds, hds, hF⟩ := Option.map_eq_some'.mp h
    injection hF with hF'
    subst hF'
    constructor
    · show theoreticalTimeOf (bestSectorsOf (detectLaps data)) =
        ((sectorStatsOf (detectLaps data)).map SectorStats.bestTime).sum
      rw [bestTimes_eq]
      exact theoreticalTime_eq_sum (detectLaps data)
    · show theoreticalTimeOf (bestSectorsOf (detectLaps data)) =
        (COTA_SECTORS.filterMap
          (fun d => (pickBest (detectLaps data) d).map Sector.time)).sum
      rw [theoreticalTime_eq_sum]
      unfold bestSectorsOf
      rw [List.map_filterMap]

/-- Witness for C1 on a concrete successful engine run. -/
theorem claim_C1_witness :
    demoOkRes.theoreticalTime = (demoOkRes.sectorStats.map SectorStats.bestTime).sum ∧
    demoOkRes.theoreticalTime =
      (COTA_SECTORS.filterMap
        (fun d => (pickBest (detectLaps demoOkData) d).map Sector.time)).sum :=
  claim_C1 0 demoOkData demoOkRes (by with_unfolding_all rfl)

/-! ## Claim C2 — timeGain is mean minus best and is non-negative -/

/-- C2: every returned `SectorStats` entry has
`timeGain = mean of the surviving (non-drafting) sector times − bestTime`,
the gain is never negative, and it is `0` when there is exactly one
surviving instance. -/
theorem claim_C2 (laps : List ParsedLap) (sdef : SectorDef) (st : SectorStats)
    (h : sectorStatFor laps sdef = some st) :
    st.timeGain =
      (validTimes laps sdef).sum / ((validTimes laps sdef).length : ℚ) - st.bestTime ∧
    0 ≤ st.timeGain ∧
    ((validTimes laps sdef).length = 1 → st.timeGain = 0) := by
  obtain ⟨b, hb, rfl⟩ := Option.map_eq_some'.mp h
  obtain ⟨hbmem, hbmin⟩ := pickBest_min laps sdef b hb
  have hmem : b.time ∈ validTimes laps sdef := List.mem_map_of_mem _ hbmem
  have hmin : ∀ t ∈ validTimes laps sdef, b.time ≤ t := by
    intro t ht
    obtain ⟨s, hs, rfl⟩ := List.mem_map.mp ht
    exact hbmin s hs
  have hne : validTimes laps sdef ≠ [] := List.ne_nil_of_mem hmem
  have hlen : 0 < (validTimes laps sdef).length := List.length_pos.mpr hne
  have hlenQ : (0 : ℚ) < ((validTimes laps sdef).length : ℚ) := by exact_mod_cast hlen
  refine ⟨rfl, ?_, ?_⟩
  · have hsum := length_mul_le_sum (validTimes laps sdef) b.time hmin
    have havg : b.time ≤ (validTimes laps sdef).sum / ((validTimes laps sdef).length : ℚ) := by
      rw [le_div_iff₀ hlenQ]
      linarith
    show (0 : ℚ) ≤ (validTimes laps sdef).sum / ((validTimes laps sdef).length : ℚ) - b.time
    linarith
  · intro h1
    obtain ⟨t, ht⟩ := List.length_eq_one.mp h1
    have hbt : b.time = t := by
      rw [ht] at hmem
      simpa using hmem
    show (validTimes laps sdef).sum / ((validTimes laps sdef).length : ℚ) - b.time = 0
    rw [ht, hbt]
    simp

set_option maxRecDepth 4000 in
/-- C3: `isDrafting` holds iff the sector's name differs from the first
(straight) section's name and its top speed exceeds the 162 threshold; the
winner search never selects a drafting-affected instance; and in
Scenario A (lap 2's S2 faster at top speed 165, lap 1's S2 slower at 150)
lap 1's instance wins. -/
theorem claim_C3 :
    (∀ s : Sector, isDrafting s = true ↔
      (s.name ≠ (COTA_SECTORS.headD default).name ∧ DRAFTING_SPEED_THRESHOLD < s.maxSpeed)) ∧
    (∀ (laps : List ParsedLap) (sdef : SectorDef) (b : Sector),
      pickBest laps sdef = some b → isDrafting b = false) ∧
    (extractSector draftLap2 S2def = some draftSectorLap2 ∧
      draftSectorLap2.time < draftWinnerS2.time ∧
      draftSectorLap2.maxSpeed = 165 ∧ draftWinnerS2.maxSpeed = 150 ∧
      isDrafting draftSectorLap2 = true ∧
      pickBest draftDemoLaps S2def = some draftWinnerS2 ∧
      draftWinnerS2.lapNumber = 1) := by
  refine ⟨?_, ?_, ?_⟩
  · intro s
    simp only [isDrafting, isCornerSector, COTA_SECTORS, List.headD_cons,
      Bool.and_eq_true, decide_eq_true_eq]
    tauto
  · intro laps sdef b h
    exact mem_valid_not_drafting (pickBest_min laps sdef b h).1
  · with_unfolding_all decide

set_option maxRecDepth 4000 in
/-- Witness for C3: the concrete winner of Scenario A is not
drafting-affected. -/
theorem claim_C3_witness : isDrafting draftWinnerS2 = false :=
  claim_C3.2.1 draftDemoLaps S2def draftWinnerS2 (by with_unfolding_all decide)

set_option maxRecDepth 4000 in
/-- Witness for C2 on the Scenario A laps: `S2` has a single surviving
instance, so its `timeGain` is `0`. -/
theorem claim_C2_witness :
    (⟨"S2", 10, 1, 0, 145⟩ : SectorStats).timeGain =
      (validTimes draftDemoLaps S2def).sum / ((validTimes draftDemoLaps S2def).length : ℚ) -
        (⟨"S2", 10, 1, 0, 145⟩ : SectorStats).bestTime ∧
    0 ≤ (⟨"S2", 10, 1, 0, 145⟩ : SectorStats).timeGain ∧
    ((validTimes draftDemoLaps S2def).length = 1 →
      (⟨"S2", 10, 1, 0, 145⟩ : SectorStats).timeGain = 0) :=
  claim_C2 draftDemoLaps S2def ⟨"S2", 10, 1, 0, 145⟩ (by with_unfolding_all decide)

/-- Scan-state computation: with exactly one boundary, at `b > 10`, the
index scan produces exactly the first lap and leaves the cursor at `b`. -/
theorem detect_scan_single (data : List TelemetryRow) (b : ℕ)
    (hb1 : 1 ≤ b) (hbn : b < data.length)
    (huniq : ∀ i, i < data.length → 1 ≤ i → (lapBoundary data i = true ↔ i = b))
    (hleft : 10 < b) :
    (List.range' 1 (data.length - 1)).foldl (detectStep data) ⟨[], 0, 1⟩ =
      ⟨[firstLapOf data b], b, 2⟩ := by
  have hsplit : List.range' 1 (data.length - 1) =
      List.range' 1 (b - 1) ++ List.range' b (data.length - b) := by
    have e1 : 1 + (b - 1) = b := by omega
    have e2 : (data.length - b) + (b - 1) = data.length - 1 := by omega
    have h := List.range'_append_1 1 (b - 1) (data.length - b)
    rw [e1, e2] at h
    exact h.symm
  rw [hsplit, List.foldl_append]
  have hpre : (List.range' 1 (b - 1)).foldl (detectStep data) ⟨[], 0, 1⟩ = ⟨[], 0, 1⟩ := by
    apply foldl_fixed
    intro i hi st
    have hi' := List.mem_range'_1.mp hi
    have hfalse : lapBoundary data i = false := by
      rcases Bool.eq_false_or_eq_true (lapBoundary data i) with h | h
      · exact absurd ((huniq i (by omega) (by omega)).mp h) (by omega)
      · exact h
    simp [detectStep, hfalse]
  rw [hpre]
  have hsucc : List.range' b (data.length - b) =
      b :: List.range' (b + 1) (data.length - b - 1) := by
    conv_lhs => rw [show data.length - b = (data.length - b - 1) + 1 from by omega]
    rw [List.range'_succ]
  rw [hsucc, List.foldl_cons]
  have hbound : lapBoundary data b = true := (huniq b hbn (by omega)).mpr rfl
  have hstepb : detectStep data ⟨[], 0, 1⟩ b = ⟨[firstLapOf data b], b, 2⟩ := by
    have hslice : jsSlice data 0 b = data.take b := by simp [jsSlice]
    have hlen' : (data.take b).length = b := by
      rw [List.length_take]
      omega
    simp [detectStep, hbound, hslice, hlen', hleft, firstLapOf]
  rw [hstepb]
  apply foldl_fixed
  intro i hi st
  have hi' := List.mem_range'_1.mp hi
  have hfalse : lapBoundary data i = false := by
    rcases Bool.eq_false_or_eq_true (lapBoundary data i) with h | h
    · exact absurd ((huniq i (by omega) (by omega)).mp h) (by omega)
    · exact h
  simp [detectStep, hfalse]

/-- C4: a boundary is declared between consecutive samples exactly when the
previous distance exceeds 3000 and the current one is below 200; with
exactly one such transition at `b` and more than 10 samples before it, more
than 10 samples after it give exactly 2 retained laps while a trailing
segment of only 8 samples is discarded, leaving only the first lap. -/
theorem claim_C4 (data : List TelemetryRow) (b : ℕ)
    (hb1 : 1 ≤ b) (hbn : b < data.length)
    (huniq : ∀ i, i < data.length → 1 ≤ i → (lapBoundary data i = true ↔ i = b))
    (hleft : 10 < b) :
    (∀ i, lapBoundary data i = true ↔
      (LAP_RESET_HIGH_THRESHOLD < (data.getD (i - 1) default).Laptrigger_lapdist_dls ∧
       (data.getD i default).Laptrigger_lapdist_dls < LAP_RESET_LOW_THRESHOLD)) ∧
    (10 < data.length - b → (detectLaps data).length = 2) ∧
    (data.length - b = 8 →
      (detectLaps data).length = 1 ∧
      ((detectLaps data).headD default).lapNumber = 1 ∧
      ((detectLaps data).headD default).startIndex = 0 ∧
      ((detectLaps data).headD default).endIndex = b - 1) := by
  have hscan := detect_scan_single data b hb1 hbn huniq hleft
  refine ⟨?_, ?_, ?_⟩
  · intro i
    simp [lapBoundary, Bool.and_eq_true, decide_eq_true_eq]
  · intro htail
    simp only [detectLaps, hscan]
    rw [if_pos (show b < data.length - 1 by omega)]
    have hlen' : (data.drop b).length = data.length - b := List.length_drop b data
    rw [if_pos (by omega : 10 < (data.drop b).length)]
    simp
  · intro htail
    simp only [detectLaps, hscan]
    rw [if_pos (show b < data.length - 1 by omega)]
    have hlen' : (data.drop b).length = data.length - b := List.length_drop b data
    rw [if_neg (by omega : ¬ 10 < (data.drop b).length)]
    refine ⟨rfl, rfl, rfl, rfl⟩

set_option maxRecDepth 100000 in
/-- Witness for C4: Scenario B yields exactly 2 retained laps and
Scenario C yields only the first lap. -/
theorem claim_C4_witness :
    (detectLaps c4StreamA).length = 2 ∧ (detectLaps c4StreamB).length = 1 :=
  ⟨(claim_C4 c4StreamA 300 (by norm_num) (by with_unfolding_all decide)
      (by with_unfolding_all decide) (by norm_num)).2.1 (by with_unfolding_all decide),
   ((claim_C4 c4StreamB 300 (by norm_num) (by with_unfolding_all decide)
      (by with_unfolding_all decide) (by norm_num)).2.2 (by with_unfolding_all decide)).1⟩

/-! ## Claims C6 and C7 — the speed-deficit sampling loop -/

/-- With a zero step and a non-empty range the sampling loop never
terminates: it returns `none` for every fuel. -/
theorem deficitLoop_zero_step (speeds : List (List ℚ)) (bs : Sector) (sdef : SectorDef)
    (n : ℕ) (hn : 0 < n) :
    ∀ fuel, deficitLoop speeds bs sdef n 0 fuel 0 = none := by
  intro fuel
  induction fuel with
  | zero => simp [deficitLoop, hn]
  | succ fuel ih => simp [deficitLoop, hn, ih]

theorem sampleIndicesFrom_stop (i n step : ℕ) (h : n ≤ i) :
    sampleIndicesFrom i n step = [] := by
  have h0 : n - i = 0 := by omega
  have h2 : (n - i + step - 1) / step = 0 := by
    rcases Nat.eq_zero_or_pos step with hs | hs
    · simp [hs]
    · exact Nat.div_eq_of_lt (by omega)
  simp [sampleIndicesFrom, h2]

theorem sampleIndicesFrom_step (i n step : ℕ) (hstep : 1 ≤ step) (hi : i < n) :
    sampleIndicesFrom i n step = i :: sampleIndicesFrom (i + step) n step := by
  have hm : (n - i + step - 1) / step = (n - (i + step) + step - 1) / step + 1 := by
    by_cases hcase : n - i ≤ step
    · have hm1 : (n - i + step - 1) / step = 1 := by
        rw [show n - i + step - 1 = (n - i - 1) + 1 * step from by omega]
        rw [Nat.add_mul_div_right _ _ (by omega)]
        rw [Nat.div_eq_of_lt (by omega)]
      have hm2 : (n - (i + step) + step - 1) / step = 0 := by
        rw [show n - (i + step) = 0 from by omega]
        exact Nat.div_eq_of_lt (by omega)
      rw [hm1, hm2]
    · have hd : n - i + step - 1 = (n - (i + step) + step - 1) + 1 * step := by omega
      rw [hd, Nat.add_mul_div_right _ _ (by omega : 0 < step)]
  rw [sampleIndicesFrom, sampleIndicesFrom, hm, List.range_succ_eq_map]
  simp only [List.map_cons, List.map_map]
  congr 1
  · simp
  · apply List.map_congr_left
    intro k _
    simp [Function.comp, Nat.succ_mul]
    ring

/-- With a positive step and enough fuel the sampling loop terminates and
emits exactly the deficits of the sampled indices. -/
theorem deficitLoop_eq (speeds : List (List ℚ)) (bs : Sector) (sdef : SectorDef)
    (n step : ℕ) (hstep : 1 ≤ step) :
    ∀ (fuel i : ℕ), n ≤ i + fuel * step →
      deficitLoop speeds bs sdef n step fuel i =
        some ((sampleIndicesFrom i n step).filterMap (deficitPointAt speeds bs sdef)) := by
  intro fuel
  induction fuel with
  | zero =>
    intro i h
    rw [sampleIndicesFrom_stop i n step (by omega)]
    simp [deficitLoop, show ¬ i < n by omega]
  | succ fuel ih =>
    intro i h
    by_cases hin : i < n
    · have hsucc : (fuel + 1) * step = fuel * step + step := by ring
      rw [show deficitLoop speeds bs sdef n step (fuel + 1) i =
          if i < n then
            (deficitLoop speeds bs sdef n step fuel (i + step)).map
              (fun rest =>
                match deficitPointAt speeds bs sdef i with
                | some d => d :: rest
                | none => rest)
          else some [] from rfl]
      rw [if_pos hin, ih (i + step) (by omega),
        sampleIndicesFrom_step i n step hstep hin, List.filterMap_cons]
      cases hp : deficitPointAt speeds bs sdef i <;> simp [hp]
    · rw [sampleIndicesFrom_stop i n step (by omega)]
      simp [deficitLoop, hin]

/-- C7 (amended): for a winning sector whose definition is found, with at
least two laps contributing and a common length `n ≥ 5`, the analyzer
terminates and emits, over the sampled indices `0, ⌊n/5⌋, 2⌊n/5⌋, …` below
`n` — at least 5 of them, but possibly more, not always exactly 5 — a
deficit point at a sampled index iff `bestSpeed − avgSpeed > 5` there. -/
theorem claim_C7 (fuel : ℕ) (laps : List ParsedLap) (bs : Sector) (sdef : SectorDef)
    (n : ℕ)
    (hfind : COTA_SECTORS.find? (fun s => decide (s.name = bs.name)) = some sdef)
    (hlen : 2 ≤ (sectorSpeedsPerLap laps sdef).length)
    (hn : jsMinNat ((sectorSpeedsPerLap laps sdef).map List.length) = n)
    (hmin : 5 ≤ n)
    (hfuel : n ≤ fuel * (n / 5)) :
    deficitsForSector fuel laps bs =
      some ((sampleIndices n (n / 5)).filterMap
        (deficitPointAt (sectorSpeedsPerLap laps sdef) bs sdef)) ∧
    5 ≤ (sampleIndices n (n / 5)).length ∧
    (∀ i, (deficitPointAt (sectorSpeedsPerLap laps sdef) bs sdef i).isSome = true ↔
      5 < speedLossAt (sectorSpeedsPerLap laps sdef) i) := by
  have hstep : 1 ≤ n / 5 := (Nat.one_le_div_iff (by norm_num)).mpr hmin
  refine ⟨?_, ?_, ?_⟩
  · simp only [deficitsForSector, hfind]
    rw [if_neg (by omega)]
    rw [hn]
    exact deficitLoop_eq _ _ _ n (n / 5) hstep fuel 0 (by omega)
  · have hlen5 : (sampleIndices n (n / 5)).length = (n - 0 + n / 5 - 1) / (n / 5) := by
      simp [sampleIndices, sampleIndicesFrom]
    rw [hlen5, Nat.le_div_iff_mul_le hstep]
    have h5s : (n / 5) * 5 ≤ n := Nat.div_mul_le_self n 5
    omega
  · intro i
    simp only [deficitPointAt]
    split_ifs with h
    · simpa using h
    · simpa using h

set_option maxRecDepth 8000 in
/-- C7 counterexample: with a common length of 9 the loop samples the 9
indices `0, 1, …, 8` — not exactly 5 — and (the gap being 50 everywhere)
emits 9 deficit points, which is impossible if exactly 5 indices were
sampled. -/
theorem claim_C7_counterexample :
    (deficitsForSector 9 c7Laps c7Best).map List.length = some 9 ∧ (9 : ℕ) ≠ 5 := by
  constructor
  · with_unfolding_all decide
  · decide

set_option maxRecDepth 8000 in
/-- Witness for C7 on the two 9-sample laps (fuel 9 suffices since the
step is `⌊9/5⌋ = 1`). -/
theorem claim_C7_witness :
    deficitsForSector 9 c7Laps c7Best =
      some ((sampleIndices 9 (9 / 5)).filterMap
        (deficitPointAt (sectorSpeedsPerLap c7Laps S1def) c7Best S1def)) ∧
    5 ≤ (sampleIndices 9 (9 / 5)).length ∧
    (∀ i, (deficitPointAt (sectorSpeedsPerLap c7Laps S1def) c7Best S1def i).isSome = true ↔
      5 < speedLossAt (sectorSpeedsPerLap c7Laps S1def) i) :=
  claim_C7 9 c7Laps c7Best S1def 9 (by with_unfolding_all decide)
    (by with_unfolding_all decide) (by with_unfolding_all decide)
    (by norm_num) (by norm_num)

set_option maxRecDepth 8000 in
/-- C6 (refuting the claim on the code): on `c6Data` the engine never
returns — neither a result nor one of the four errors — for any fuel,
because the speed-deficit sampling step `⌊4/5⌋` is zero. -/
theorem claim_C6 : ∀ fuel : ℕ, engineAnalyze fuel c6Data = none := by
  have hB : bestSectorsOf (detectLaps c6Data) = [c6Winner] := by
    with_unfolding_all decide
  have hfind : COTA_SECTORS.find? (fun s => decide (s.name = c6Winner.name)) = some S1def := by
    with_unfolding_all decide
  have hsp : sectorSpeedsPerLap (detectLaps c6Data) S1def = [c6SpeedsA, c6SpeedsB] := by
    with_unfolding_all decide
  have hmin : jsMinNat ([c6SpeedsA, c6SpeedsB].map List.length) = 4 := by
    with_unfolding_all decide
  intro fuel
  have hD : deficitsForSector fuel (detectLaps c6Data) c6Winner = none := by
    simp only [deficitsForSector, hfind]
    rw [hsp, hmin]
    rw [if_neg (by norm_num)]
    rw [show (4 : ℕ) / 5 = 0 from by norm_num]
    exact deficitLoop_zero_step [c6SpeedsA, c6SpeedsB] c6Winner S1def 4 (by norm_num) fuel
  have hA : analyzeSpeedDeficits fuel (detectLaps c6Data) (bestSectorsOf (detectLaps c6Data))
      = none := by
    rw [analyzeSpeedDeficits, hB]
    simp [hD]
  simp only [engineAnalyze]
  rw [if_neg (by with_unfolding_all decide : ¬ c6Data.length = 0),
    if_neg (by with_unfolding_all decide : ¬ (detectLaps c6Data).length = 0),
    if_neg (by with_unfolding_all decide : ¬ (bestSectorsOf (detectLaps c6Data)).length = 0),
    hA]
  rfl

end GRLap

